import Mathlib

/-!
Verification of the message-history wrapper and callback-registration surface
documented by this repository (the `RunnableWithMessageHistory` notebook, the
Astra DB / Cassandra integrations page, and the callbacks overview page).

The repository is a documentation corpus: it shows how the framework classes
are configured and invoked, while the classes themselves live outside the
included sources.  Definitions below that embed such a class are therefore
modelled from the specification text (marked `Modelled from the spec:`);
definitions coming from code that is present (the notebook's resolver lambda,
the documented `BaseCallbackHandler` interface) follow that source directly.
-/

/-- A conversational turn.  The notebook's chains exchange `HumanMessage`,
`AIMessage` and system messages; all are `BaseMessage`s carrying content. -/
inductive BaseMessage where
  | human (content : String)
  | ai (content : String)
  | system (content : String)
deriving DecidableEq, Repr

/-- A value stored under a key of a structured (dict) payload: either a plain
string (the latest message as a string) or a sequence of messages. -/
inductive FieldVal where
  | str (s : String)
  | msgs (ms : List BaseMessage)
deriving DecidableEq, Repr

/-- The input payload accepted by the wrapped unit of work: a flat sequence of
`BaseMessage`, or a structured record (dict) of named fields. -/
inductive RunInput where
  | messages (ms : List BaseMessage)
  | record (fields : List (String × FieldVal))
deriving DecidableEq, Repr

/-- The output produced by the wrapped unit of work: a string (treated as the
contents of an `AIMessage`), a sequence of `BaseMessage`, or a dict with a key
that contains a sequence of `BaseMessage`. -/
inductive RunOutput where
  | str (s : String)
  | messages (ms : List BaseMessage)
  | record (fields : List (String × List BaseMessage))
deriving DecidableEq, Repr

/-- The configuration descriptor of `RunnableWithMessageHistory`: which field
holds the latest input message(s), which field receives the historical
messages, and which output field holds the produced message(s).  Each is
optional, exactly as in the notebook's constructor calls. -/
structure HistoryConfig where
  input_messages_key : Option String
  history_messages_key : Option String
  output_messages_key : Option String
deriving DecidableEq, Repr

/-- Dict lookup on a record payload. -/
def lookupField (fields : List (String × α)) (k : String) : Option α :=
  (fields.find? (fun p => p.1 == k)).map Prod.snd

/-- Dict update on a record payload: bind `k` to `v`, shadowing any earlier
binding of `k`. -/
def setField (fields : List (String × α)) (k : String) (v : α) :
    List (String × α) :=
  (k, v) :: fields.filter (fun p => p.1 != k)

/-- The transcript state of the external message store: each session key holds
its ordered sequence of turns. -/
def Store : Type := String → List BaseMessage

/-- Overwrite the transcript held under one session key. -/
def updateStore (st : Store) (sid : String) (ms : List BaseMessage) : Store :=
  fun k => if k = sid then ms else st k

/-- The Redis URL fixed by the notebook's setup cell. -/
def REDIS_URL : String := "redis://localhost:6379/0"

/-- The history handle constructed by the notebook:
`RedisChatMessageHistory(session_id, url=REDIS_URL)`. -/
structure RedisChatMessageHistory where
  session_id : String
  url : String
deriving DecidableEq, Repr

/-- The notebook's resolver: `lambda session_id:
RedisChatMessageHistory(session_id, url=REDIS_URL)`. -/
def get_session_history (sid : String) : RedisChatMessageHistory :=
  ⟨sid, REDIS_URL⟩

/-- Modelled from the spec: reading a history handle returns the current
ordered sequence of turns of the transcript the handle refers to; a Redis
history handle is keyed by its session id. -/
def readHandle (h : RedisChatMessageHistory) (st : Store) : List BaseMessage :=
  st h.session_id

/-- Modelled from the spec: appending turns through a history handle extends
the transcript the handle refers to, leaving every other transcript
untouched. -/
def appendHandle (h : RedisChatMessageHistory) (ms : List BaseMessage)
    (st : Store) : Store :=
  updateStore st h.session_id (st h.session_id ++ ms)

/-- Two history handles are equivalent when they refer to the same underlying
transcript, i.e. read the same turn sequence out of every store state. -/
def handleEquiv (h₁ h₂ : RedisChatMessageHistory) : Prop :=
  ∀ st : Store, readHandle h₁ st = readHandle h₂ st

/-- Modelled from the spec: extraction of the new input turn(s) from the
payload.  A flat sequence is taken as is; a dict yields the value under the
configured `input_messages_key`, a string value standing for one
`HumanMessage`.  A dict without a configured input key is rejected. -/
def getInputMessages (cfg : HistoryConfig) :
    RunInput → Option (List BaseMessage)
  | .messages ms => some ms
  | .record fs =>
    match cfg.input_messages_key with
    | some k =>
      match lookupField fs k with
      | some (.str s) => some [.human s]
      | some (.msgs ms) => some ms
      | none => none
    | none => none

/-- Modelled from the spec: splice the historical turns into the input at the
configured location — under the `history_messages_key` field when one is
configured (which requires a dict payload), otherwise by prepending them to
the flat sequence of new input message(s) handed to the wrapped unit of
work. -/
def injectHistory (cfg : HistoryConfig) (hist : List BaseMessage)
    (inp : RunInput) (inputMsgs : List BaseMessage) : Option RunInput :=
  match cfg.history_messages_key with
  | some k =>
    match inp with
    | .record fs => some (.record (setField fs k (.msgs hist)))
    | .messages _ => none
  | none => some (.messages (hist ++ inputMsgs))

/-- Modelled from the spec: extraction of the produced output turn(s).  A
string is treated as the contents of an `AIMessage`; a sequence of messages is
taken as is; a dict yields the sequence under the configured
`output_messages_key`. -/
def getOutputMessages (cfg : HistoryConfig) :
    RunOutput → Option (List BaseMessage)
  | .str s => some [.ai s]
  | .messages ms => some ms
  | .record fs =>
    match cfg.output_messages_key with
    | some k => lookupField fs k
    | none => none

/-- Modelled from the spec: one invocation of `RunnableWithMessageHistory`.
Given the session identifier from the call-scoped configuration, it resolves
the history handle through the resolver, reads the handle's current turns,
splices them into the input at the configured location, invokes the wrapped
unit of work on the augmented input, and appends first the new input turn(s)
and then the produced output turn(s) to the handle.  It returns the produced
output together with the updated store state, or `none` when a payload shape
is not among the accepted ones. -/
def invoke (cfg : HistoryConfig) (inner : RunInput → RunOutput)
    (resolver : String → RedisChatMessageHistory) (st : Store)
    (sid : String) (inp : RunInput) : Option (RunOutput × Store) :=
  (getInputMessages cfg inp).bind fun inputMsgs =>
    (injectHistory cfg (readHandle (resolver sid) st) inp inputMsgs).bind
      fun augmented =>
        (getOutputMessages cfg (inner augmented)).map fun outMsgs =>
          (inner augmented, appendHandle (resolver sid) (inputMsgs ++ outMsgs) st)

/-- The notebook's `chain_with_history`: `invoke` instantiated with the
notebook's Redis resolver. -/
def chain_with_history_invoke (cfg : HistoryConfig)
    (inner : RunInput → RunOutput) (st : Store) (sid : String)
    (inp : RunInput) : Option (RunOutput × Store) :=
  invoke cfg inner get_session_history st sid inp

/-- The lifecycle events of the documented `BaseCallbackHandler` interface,
one constructor per method of the class listed on the callbacks page. -/
inductive CallbackMethod where
  | on_llm_start
  | on_chat_model_start
  | on_llm_new_token
  | on_llm_end
  | on_llm_error
  | on_chain_start
  | on_chain_end
  | on_chain_error
  | on_tool_start
  | on_tool_end
  | on_tool_error
  | on_text
  | on_agent_action
  | on_agent_finish
deriving DecidableEq, Repr

/-- The method name, exactly as spelled in the documented class. -/
def CallbackMethod.methodName : CallbackMethod → String
  | .on_llm_start => "on_llm_start"
  | .on_chat_model_start => "on_chat_model_start"
  | .on_llm_new_token => "on_llm_new_token"
  | .on_llm_end => "on_llm_end"
  | .on_llm_error => "on_llm_error"
  | .on_chain_start => "on_chain_start"
  | .on_chain_end => "on_chain_end"
  | .on_chain_error => "on_chain_error"
  | .on_tool_start => "on_tool_start"
  | .on_tool_end => "on_tool_end"
  | .on_tool_error => "on_tool_error"
  | .on_text => "on_text"
  | .on_agent_action => "on_agent_action"
  | .on_agent_finish => "on_agent_finish"

/-- The methods of the documented handler interface, in the order the class
declares them. -/
def allCallbackMethods : List CallbackMethod :=
  [.on_llm_start, .on_chat_model_start, .on_llm_new_token, .on_llm_end,
   .on_llm_error, .on_chain_start, .on_chain_end, .on_chain_error,
   .on_tool_start, .on_tool_end, .on_tool_error, .on_text,
   .on_agent_action, .on_agent_finish]

/-- The two scopes at which the `callbacks` argument is accepted:
construction time and call (request) time. -/
inductive CallbackScope where
  | constructor
  | request
deriving DecidableEq, Repr

/-- A callback handler object.  `console` is the stdout/console handler that
the `verbose` flag stands for; other handlers are distinguished by name. -/
inductive Handler where
  | console
  | named (n : String)
deriving DecidableEq, Repr

/-- An object of the API (chain, model, tool, ...) together with its
constructor-scoped callbacks, its `verbose` flag, and the chain of child
objects its requests delegate to (an `LLMChain` node whose child is the
attached model, for instance). -/
inductive CBObject where
  | leaf (ctorCallbacks : List Handler) (vflag : Bool)
  | node (ctorCallbacks : List Handler) (vflag : Bool) (child : CBObject)
deriving DecidableEq, Repr

/-- All constructor-scoped handlers appearing anywhere in an object tree. -/
def allCtorCallbacks : CBObject → List Handler
  | .leaf cbs _ => cbs
  | .node cbs _ child => cbs ++ allCtorCallbacks child

/-- Modelled from the spec: the handlers notified of one object's events
during a request — the object's own constructor callbacks, the console
handler when the object is (or inherits) verbose, and the request callbacks
propagated into the request. -/
def effectiveHandlers (ctorCbs : List Handler) (verboseOn : Bool)
    (requestCbs : List Handler) : List Handler :=
  ctorCbs ++ (if verboseOn then [Handler.console] else []) ++ requestCbs

/-- Modelled from the spec: the handler sets used along one request, one entry
per object from the requested object down through its sub-requests.
Constructor callbacks are scoped to their own object; request callbacks are
propagated to every sub-request; the `verbose` flag is propagated to child
objects. -/
def runHandlers : CBObject → Bool → List Handler → List (List Handler)
  | .leaf cbs v, inheritedVerbose, reqCbs =>
    [effectiveHandlers cbs (v || inheritedVerbose) reqCbs]
  | .node cbs v child, inheritedVerbose, reqCbs =>
    effectiveHandlers cbs (v || inheritedVerbose) reqCbs ::
      runHandlers child (v || inheritedVerbose) reqCbs

/-- The handler sets of a request issued on an object from the outside. -/
def invokeHandlers (obj : CBObject) (reqCbs : List Handler) :
    List (List Handler) :=
  runHandlers obj false reqCbs

/-- Set the `verbose` flag on the object itself (the constructor argument
`verbose=True`). -/
def setVerbose : CBObject → CBObject
  | .leaf cbs _ => .leaf cbs true
  | .node cbs _ child => .node cbs true child

/-- Pass the console handler explicitly to the `callbacks` argument of the
object and of all of its child objects. -/
def addConsoleEverywhere : CBObject → CBObject
  | .leaf cbs v => .leaf (cbs ++ [Handler.console]) v
  | .node cbs v child =>
    .node (cbs ++ [Handler.console]) v (addConsoleEverywhere child)

/-- True when no object in the tree has its `verbose` flag set. -/
def allVerboseFalse : CBObject → Bool
  | .leaf _ v => !v
  | .node _ v child => !v && allVerboseFalse child

/-- The stages whose start/end/error lifecycle hooks the documented interface
exposes. -/
inductive Stage where
  | llm
  | chain
  | tool
deriving DecidableEq, Repr

/-- A lifecycle notification delivered during one run of a stage. -/
inductive StageEvent where
  | start (s : Stage)
  | ended (s : Stage) (result : String)
  | errored (s : Stage) (e : String)
deriving DecidableEq, Repr

/-- The outcome of the single underlying vendor call. -/
inductive VendorResult where
  | ok (result : String)
  | err (e : String)
deriving DecidableEq, Repr

/-- Modelled from the spec: run one stage around a single underlying vendor
call.  Every registered handler is notified of the start, then of the end or
of the error; the call's outcome is returned unchanged — no retry, backoff or
recovery is applied. -/
def runStageOnce (stage : Stage) (handlers : List Handler)
    (call : VendorResult) : List (Handler × StageEvent) × VendorResult :=
  let starts := handlers.map (fun h => (h, StageEvent.start stage))
  match call with
  | .ok r => (starts ++ handlers.map (fun h => (h, StageEvent.ended stage r)), .ok r)
  | .err e => (starts ++ handlers.map (fun h => (h, StageEvent.errored stage e)), .err e)

/-- Unfolding lemma: what a successful invocation of the notebook's
history-wrapped chain consists of. -/
theorem chain_invoke_some {cfg : HistoryConfig} {inner : RunInput → RunOutput}
    {st : Store} {sid : String} {inp : RunInput} {out : RunOutput} {st' : Store}
    (hinv : chain_with_history_invoke cfg inner st sid inp = some (out, st')) :
    ∃ inputMsgs augmented outMsgs,
      getInputMessages cfg inp = some inputMsgs ∧
      injectHistory cfg (st sid) inp inputMsgs = some augmented ∧
      out = inner augmented ∧
      getOutputMessages cfg (inner augmented) = some outMsgs ∧
      ∀ k : String,
        st' k = if k = sid then st sid ++ (inputMsgs ++ outMsgs) else st k := by
  unfold chain_with_history_invoke invoke at hinv
  rcases Option.bind_eq_some.mp hinv with ⟨inputMsgs, him, hrest⟩
  rcases Option.bind_eq_some.mp hrest with ⟨augmented, hau, hrest2⟩
  rcases Option.map_eq_some'.mp hrest2 with ⟨outMsgs, hom, heq⟩
  have hout : out = inner augmented := by
    have := congrArg Prod.fst heq
    exact this.symm
  have hst : st' = appendHandle (get_session_history sid) (inputMsgs ++ outMsgs) st := by
    have := congrArg Prod.snd heq
    exact this.symm
  refine ⟨inputMsgs, augmented, outMsgs, him, hau, hout, hom, ?_⟩
  intro k
  rw [hst]
  simp only [appendHandle, updateStore, readHandle, get_session_history]

/-- Concrete data for witnessing: the notebook's dict configuration, a chain
answering a fixed string, an empty store, and the notebook's first input. -/
def exCfg : HistoryConfig := ⟨some "question", some "history", none⟩

def exInner : RunInput → RunOutput := fun _ => RunOutput.str "hi"

def exStore : Store := fun _ => []

def exInput : RunInput :=
  RunInput.record [("question", FieldVal.str "What does cosine mean?")]

def exStore' : Store :=
  appendHandle (get_session_history "foobar")
    ([BaseMessage.human "What does cosine mean?"] ++ [BaseMessage.ai "hi"])
    exStore

def exStore2 : Store :=
  appendHandle (get_session_history "foobar")
    ([BaseMessage.human "What does cosine mean?"] ++ [BaseMessage.ai "hi"])
    exStore'

/-- C1: every successful invocation of the history-augmented runnable with a
session identifier from the call-scoped configuration performs the documented
steps in order: resolve the history handle from the session identifier, read
its current ordered turns, splice them into the input at the configured
location, invoke the wrapped unit of work on the augmented input, and append
first the new input turn(s) and then the produced output turn(s) to the
handle's transcript. -/
theorem C1_invocation_steps (cfg : HistoryConfig) (inner : RunInput → RunOutput)
    (st : Store) (sid : String) (inp : RunInput) (out : RunOutput) (st' : Store)
    (hinv : chain_with_history_invoke cfg inner st sid inp = some (out, st')) :
    ∃ inputMsgs augmented outMsgs,
      getInputMessages cfg inp = some inputMsgs ∧
      injectHistory cfg (readHandle (get_session_history sid) st) inp inputMsgs
        = some augmented ∧
      out = inner augmented ∧
      getOutputMessages cfg out = some outMsgs ∧
      readHandle (get_session_history sid) st' =
        readHandle (get_session_history sid) st ++ inputMsgs ++ outMsgs := by
  rcases chain_invoke_some hinv with ⟨im, aug, om, h1, h2, h3, h4, h5⟩
  refine ⟨im, aug, om, h1, h2, h3, ?_, ?_⟩
  · rw [h3]; exact h4
  · have hsid := h5 sid
    rw [if_pos rfl] at hsid
    show st' sid = st sid ++ im ++ om
    rw [hsid, List.append_assoc]

/-- Witness for C1: the notebook's dict-configured chain invoked once on the
empty store. -/
theorem C1_invocation_steps_witness :
    ∃ inputMsgs augmented outMsgs,
      getInputMessages exCfg exInput = some inputMsgs ∧
      injectHistory exCfg (readHandle (get_session_history "foobar") exStore)
        exInput inputMsgs = some augmented ∧
      RunOutput.str "hi" = exInner augmented ∧
      getOutputMessages exCfg (RunOutput.str "hi") = some outMsgs ∧
      readHandle (get_session_history "foobar") exStore' =
        readHandle (get_session_history "foobar") exStore ++ inputMsgs
          ++ outMsgs :=
  C1_invocation_steps exCfg exInner exStore "foobar" exInput
    (RunOutput.str "hi") exStore' (by rfl)

/-- C2: under one session identifier the transcript is consistent and only
grows — each invocation's starting transcript is an initial segment of the
transcript the next invocation observes — while invocations never modify the
transcript of a different session identifier, and the observed output depends
only on the invoking session's own transcript (other sessions are never
observed). -/
theorem C2_growing_transcript_and_isolation
    (cfg₁ cfg₂ : HistoryConfig) (inner₁ inner₂ : RunInput → RunOutput)
    (st : Store) (sid : String) (inp₁ inp₂ : RunInput)
    (out₁ out₂ : RunOutput) (st₁ st₂ : Store)
    (h₁ : chain_with_history_invoke cfg₁ inner₁ st sid inp₁ = some (out₁, st₁))
    (h₂ : chain_with_history_invoke cfg₂ inner₂ st₁ sid inp₂ = some (out₂, st₂)) :
    (∃ new₁, st₁ sid = st sid ++ new₁) ∧
    (∃ new₂, st₂ sid = st₁ sid ++ new₂) ∧
    (∀ sid', sid' ≠ sid → st₁ sid' = st sid' ∧ st₂ sid' = st sid') ∧
    (∀ stB : Store, stB sid = st sid →
      Option.map Prod.fst (chain_with_history_invoke cfg₁ inner₁ stB sid inp₁)
        = some out₁) := by
  rcases chain_invoke_some h₁ with ⟨im₁, aug₁, om₁, hi₁, ha₁, ho₁, hm₁, hs₁⟩
  rcases chain_invoke_some h₂ with ⟨im₂, aug₂, om₂, hi₂, ha₂, ho₂, hm₂, hs₂⟩
  refine ⟨⟨im₁ ++ om₁, by have := hs₁ sid; rwa [if_pos rfl] at this⟩,
    ⟨im₂ ++ om₂, by have := hs₂ sid; rwa [if_pos rfl] at this⟩, ?_, ?_⟩
  · intro sid' hne
    have e₁ := hs₁ sid'
    have e₂ := hs₂ sid'
    rw [if_neg hne] at e₁ e₂
    exact ⟨e₁, e₂.trans e₁⟩
  · intro stB hB
    unfold chain_with_history_invoke invoke
    rw [show readHandle (get_session_history sid) stB = st sid from hB]
    simp [hi₁, ha₁, hm₁, ho₁]

/-- Witness for C2: two consecutive invocations of the notebook's chain under
session `foobar` starting from the empty store. -/
theorem C2_growing_transcript_and_isolation_witness :
    (∃ new₁, exStore' "foobar" = exStore "foobar" ++ new₁) ∧
    (∃ new₂, exStore2 "foobar" = exStore' "foobar" ++ new₂) ∧
    (∀ sid', sid' ≠ "foobar" →
      exStore' sid' = exStore sid' ∧ exStore2 sid' = exStore sid') ∧
    (∀ stB : Store, stB "foobar" = exStore "foobar" →
      Option.map Prod.fst
        (chain_with_history_invoke exCfg exInner stB "foobar" exInput) =
        some (RunOutput.str "hi")) :=
  C2_growing_transcript_and_isolation exCfg exCfg exInner exInner exStore
    "foobar" exInput exInput (RunOutput.str "hi") (RunOutput.str "hi")
    exStore' exStore2 (by rfl) (by rfl)

/-- C3: the wrapper accepts exactly two input shapes — a flat sequence of
`BaseMessage`, or a dict whose configured `input_messages_key` field is
present — and the configuration descriptor selects where the historical turns
are spliced: under the `history_messages_key` field of a dict payload when
that key is configured, otherwise into the flat message sequence. -/
theorem C3_accepted_input_shapes (cfg : HistoryConfig) (inp : RunInput) :
    ((∃ ms, getInputMessages cfg inp = some ms) ↔
      (∃ ms, inp = RunInput.messages ms) ∨
      (∃ fs k v, inp = RunInput.record fs ∧
        cfg.input_messages_key = some k ∧ lookupField fs k = some v)) ∧
    (∀ hist inputMsgs k fs, cfg.history_messages_key = some k →
      injectHistory cfg hist (RunInput.record fs) inputMsgs =
        some (RunInput.record (setField fs k (FieldVal.msgs hist)))) ∧
    (∀ hist inputMsgs, cfg.history_messages_key = none →
      injectHistory cfg hist inp inputMsgs =
        some (RunInput.messages (hist ++ inputMsgs))) := by
  refine ⟨?_, ?_, ?_⟩
  · cases inp with
    | messages ms => simp [getInputMessages]
    | record fs =>
      cases hk : cfg.input_messages_key with
      | none => simp [getInputMessages, hk]
      | some k =>
        cases hv : lookupField fs k with
        | none => simp [getInputMessages, hk, hv]
        | some v =>
          constructor
          · intro _
            exact Or.inr ⟨fs, k, v, rfl, rfl, hv⟩
          · intro _
            cases v with
            | str s =>
              exact ⟨[BaseMessage.human s], by simp [getInputMessages, hk, hv]⟩
            | msgs ms => exact ⟨ms, by simp [getInputMessages, hk, hv]⟩
  · intro hist inputMsgs k fs hk
    simp [injectHistory, hk]
  · intro hist inputMsgs hk
    simp [injectHistory, hk]

/-- Witness for C3: the notebook's dict configuration splices the history
under its `history` field, and a flat-sequence configuration splices it into
the message sequence. -/
theorem C3_accepted_input_shapes_witness :
    injectHistory exCfg [BaseMessage.ai "old"] exInput [BaseMessage.human "q"]
      = some (RunInput.record
          (setField [("question", FieldVal.str "What does cosine mean?")]
            "history" (FieldVal.msgs [BaseMessage.ai "old"]))) ∧
    injectHistory ⟨none, none, some "output_message"⟩ [BaseMessage.ai "old"]
      (RunInput.messages [BaseMessage.human "q"]) [BaseMessage.human "q"]
      = some (RunInput.messages
          ([BaseMessage.ai "old"] ++ [BaseMessage.human "q"])) :=
  ⟨(C3_accepted_input_shapes exCfg exInput).2.1 [BaseMessage.ai "old"]
      [BaseMessage.human "q"] "history"
      [("question", FieldVal.str "What does cosine mean?")] rfl,
    (C3_accepted_input_shapes ⟨none, none, some "output_message"⟩
      (RunInput.messages [BaseMessage.human "q"])).2.2 [BaseMessage.ai "old"]
      [BaseMessage.human "q"] rfl⟩

/-- C8: the notebook's session-history resolver is deterministic — two calls
with the same session identifier return equivalent handles, and each resolved
handle refers to the underlying transcript keyed by that identifier, so
repeated invocations under one session identifier always reach the same
store. -/
theorem C8_resolver_deterministic (sid₁ sid₂ : String) (hs : sid₁ = sid₂) :
    handleEquiv (get_session_history sid₁) (get_session_history sid₂) ∧
    ∀ st : Store, readHandle (get_session_history sid₁) st = st sid₁ := by
  subst hs
  exact ⟨fun _ => rfl, fun _ => rfl⟩

/-- Witness for C8 at the notebook's session identifier. -/
theorem C8_resolver_deterministic_witness :
    handleEquiv (get_session_history "foobar") (get_session_history "foobar") ∧
    ∀ st : Store, readHandle (get_session_history "foobar") st = st "foobar" :=
  C8_resolver_deterministic "foobar" "foobar" rfl

/-- C10: the wrapped unit of work's output is one of exactly three shapes — a
string (treated as the contents of an `AIMessage`), a sequence of
`BaseMessage`, or a dict — and in the dict case the configured
`output_messages_key` designates which key holds the output messages appended
to the history. -/
theorem C10_output_shapes (cfg : HistoryConfig) :
    (∀ o : RunOutput,
      (∃ s, o = RunOutput.str s) ∨ (∃ ms, o = RunOutput.messages ms) ∨
        (∃ fs, o = RunOutput.record fs)) ∧
    (∀ s, getOutputMessages cfg (RunOutput.str s) = some [BaseMessage.ai s]) ∧
    (∀ ms, getOutputMessages cfg (RunOutput.messages ms) = some ms) ∧
    (∀ fs k, cfg.output_messages_key = some k →
      getOutputMessages cfg (RunOutput.record fs) = lookupField fs k) := by
  refine ⟨?_, fun s => rfl, fun ms => rfl, ?_⟩
  · intro o
    cases o with
    | str s => exact Or.inl ⟨s, rfl⟩
    | messages ms => exact Or.inr (Or.inl ⟨ms, rfl⟩)
    | record fs => exact Or.inr (Or.inr ⟨fs, rfl⟩)
  · intro fs k hk
    simp [getOutputMessages, hk]

/-- Witness for C10: the notebook's `output_messages_key="output_message"`
configuration reads the output messages from that dict key. -/
theorem C10_output_shapes_witness :
    getOutputMessages ⟨none, none, some "output_message"⟩
      (RunOutput.record [("output_message", [BaseMessage.ai "free will"])]) =
      lookupField [("output_message", [BaseMessage.ai "free will"])]
        "output_message" :=
  (C10_output_shapes ⟨none, none, some "output_message"⟩).2.2.2
    [("output_message", [BaseMessage.ai "free will"])] "output_message" rfl

/-- C4: the callbacks argument is accepted at exactly two scopes
(construction time and call time), and the documented handler interface
exposes exactly the named lifecycle events: start, end and error for
language-model calls (including chat-model start and the per-token
notification), chain execution and tool execution, plus the freeform text
notification and the agent action and agent finish notifications. -/
theorem C4_callback_surface :
    (∀ s : CallbackScope,
      s = CallbackScope.constructor ∨ s = CallbackScope.request) ∧
    (∀ m : CallbackMethod, m ∈ allCallbackMethods) ∧
    allCallbackMethods.Nodup ∧
    allCallbackMethods.map CallbackMethod.methodName =
      ["on_llm_start", "on_chat_model_start", "on_llm_new_token", "on_llm_end",
       "on_llm_error", "on_chain_start", "on_chain_end", "on_chain_error",
       "on_tool_start", "on_tool_end", "on_tool_error", "on_text",
       "on_agent_action", "on_agent_finish"] := by
  refine ⟨?_, ?_, by decide, rfl⟩
  · intro s
    cases s
    · exact Or.inl rfl
    · exact Or.inr rfl
  · intro m
    cases m <;> decide

/-- Membership in the handler set effective for one object's events. -/
theorem mem_effectiveHandlers {h : Handler} {cbs : List Handler} {b : Bool}
    {req : List Handler} :
    h ∈ effectiveHandlers cbs b req ↔
      h ∈ cbs ∨ (b = true ∧ h = Handler.console) ∨ h ∈ req := by
  cases b <;> simp [effectiveHandlers]

/-- A handler registered nowhere in the tree, not passed with the request and
different from the console handler is used by no object of the run. -/
theorem not_mem_runHandlers (obj : CBObject) (reqCbs : List Handler)
    (h : Handler) :
    ∀ iv : Bool, h ∉ allCtorCallbacks obj → h ∉ reqCbs →
      h ≠ Handler.console → ∀ l ∈ runHandlers obj iv reqCbs, h ∉ l := by
  induction obj with
  | leaf cbs v =>
    intro iv hc hr hcon l hl
    simp only [runHandlers, List.mem_singleton] at hl
    subst hl
    intro hmem
    rcases mem_effectiveHandlers.mp hmem with hm | ⟨_, hm⟩ | hm
    · exact hc hm
    · exact hcon hm
    · exact hr hm
  | node cbs v child ih =>
    intro iv hc hr hcon l hl
    simp only [allCtorCallbacks, List.mem_append] at hc
    push_neg at hc
    simp only [runHandlers, List.mem_cons] at hl
    rcases hl with e | hmem'
    · subst e
      intro hmem
      rcases mem_effectiveHandlers.mp hmem with hm | ⟨_, hm⟩ | hm
      · exact hc.1 hm
      · exact hcon hm
      · exact hr hm
    · exact ih (v || iv) hc.2 hr hcon l hmem'

/-- C5: a handler registered as a constructor callback on an object is used
for the calls made on that object (whatever the request callbacks are), but
is scoped to that object only: provided it is not independently registered on
a child, passed with the request, or the console handler, it is never invoked
for events of the child objects — e.g. a handler passed to the `LLMChain`
constructor is not used by the model attached to that chain. -/
theorem C5_constructor_callbacks_scoped (cbs : List Handler) (v : Bool)
    (child : CBObject) (reqCbs : List Handler) (h : Handler)
    (hmem : h ∈ cbs) (hchild : h ∉ allCtorCallbacks child)
    (hreq : h ∉ reqCbs) (hcon : h ≠ Handler.console) :
    ∃ own rest,
      invokeHandlers (CBObject.node cbs v child) reqCbs = own :: rest ∧
      h ∈ own ∧ ∀ l ∈ rest, h ∉ l := by
  refine ⟨effectiveHandlers cbs (v || false) reqCbs,
    runHandlers child (v || false) reqCbs, rfl, ?_, ?_⟩
  · exact mem_effectiveHandlers.mpr (Or.inl hmem)
  · exact not_mem_runHandlers child reqCbs h (v || false) hchild hreq hcon

/-- Witness for C5: an `LLMChain` with one constructor handler and an
attached model; the handler fires on the chain but not on the model. -/
theorem C5_constructor_callbacks_scoped_witness :
    ∃ own rest,
      invokeHandlers
        (CBObject.node [Handler.named "hdl"] false (CBObject.leaf [] false))
        [] = own :: rest ∧
      Handler.named "hdl" ∈ own ∧ ∀ l ∈ rest, Handler.named "hdl" ∉ l :=
  C5_constructor_callbacks_scoped [Handler.named "hdl"] false
    (CBObject.leaf [] false) [] (Handler.named "hdl")
    (by simp) (by simp [allCtorCallbacks]) (by simp) (by simp)

/-- C6: a handler passed as a request (call-time) callback is used for that
specific request by the invoked object and by every sub-request it contains
(a call to an `LLMChain` triggers a call to the model with the same handler),
and it is not used for a request whose callbacks do not include it, provided
it is not registered at construction time and is not the console handler. -/
theorem C6_request_callbacks_propagate (obj : CBObject)
    (reqCbs : List Handler) (h : Handler) (hmem : h ∈ reqCbs) :
    (∀ l ∈ invokeHandlers obj reqCbs, h ∈ l) ∧
    (∀ reqCbs', h ∉ reqCbs' → h ∉ allCtorCallbacks obj →
      h ≠ Handler.console → ∀ l ∈ invokeHandlers obj reqCbs', h ∉ l) := by
  constructor
  · have key : ∀ iv, ∀ l ∈ runHandlers obj iv reqCbs, h ∈ l := by
      induction obj with
      | leaf cbs v =>
        intro iv l hl
        simp only [runHandlers, List.mem_singleton] at hl
        subst hl
        exact mem_effectiveHandlers.mpr (Or.inr (Or.inr hmem))
      | node cbs v child ih =>
        intro iv l hl
        simp only [runHandlers, List.mem_cons] at hl
        rcases hl with e | hmem'
        · subst e
          exact mem_effectiveHandlers.mpr (Or.inr (Or.inr hmem))
        · exact ih (v || iv) l hmem'
    exact key false
  · intro reqCbs' hr hc hcon
    exact not_mem_runHandlers obj reqCbs' h false hc hr hcon

/-- Witness for C6: a request handler passed to a chain call reaches the
chain and its attached model. -/
theorem C6_request_callbacks_propagate_witness :
    (∀ l ∈ invokeHandlers (CBObject.node [] false (CBObject.leaf [] false))
        [Handler.named "stream"], Handler.named "stream" ∈ l) ∧
    (∀ reqCbs', Handler.named "stream" ∉ reqCbs' →
      Handler.named "stream" ∉
        allCtorCallbacks (CBObject.node [] false (CBObject.leaf [] false)) →
      Handler.named "stream" ≠ Handler.console →
      ∀ l ∈ invokeHandlers (CBObject.node [] false (CBObject.leaf [] false))
          reqCbs', Handler.named "stream" ∉ l) :=
  C6_request_callbacks_propagate (CBObject.node [] false (CBObject.leaf [] false))
    [Handler.named "stream"] (Handler.named "stream") (by simp)

/-- Inheriting verbosity over a verbose-free tree equals adding the console
handler to every object's constructor callbacks. -/
theorem runHandlers_verbose_eq_console (obj : CBObject)
    (reqCbs : List Handler) (hv : allVerboseFalse obj = true) :
    runHandlers obj true reqCbs =
      runHandlers (addConsoleEverywhere obj) false reqCbs := by
  induction obj with
  | leaf cbs v =>
    simp only [allVerboseFalse, Bool.not_eq_true'] at hv
    subst hv
    simp [runHandlers, addConsoleEverywhere, effectiveHandlers]
  | node cbs v child ih =>
    simp only [allVerboseFalse, Bool.and_eq_true, Bool.not_eq_true'] at hv
    obtain ⟨hv1, hv2⟩ := hv
    subst hv1
    simp [runHandlers, addConsoleEverywhere, effectiveHandlers, ih hv2]

/-- Every object reached by a run with inherited verbosity uses the console
handler. -/
theorem console_mem_runHandlers (obj : CBObject) (reqCbs : List Handler) :
    ∀ l ∈ runHandlers obj true reqCbs, Handler.console ∈ l := by
  induction obj with
  | leaf cbs v =>
    intro l hl
    simp only [runHandlers, List.mem_singleton] at hl
    subst hl
    exact mem_effectiveHandlers.mpr (Or.inr (Or.inl ⟨by simp, rfl⟩))
  | node cbs v child ih =>
    intro l hl
    simp only [runHandlers, List.mem_cons] at hl
    rcases hl with e | hmem'
    · subst e
      exact mem_effectiveHandlers.mpr (Or.inr (Or.inl ⟨by simp, rfl⟩))
    · exact ih l (by simpa using hmem')

/-- C9: constructing an object with `verbose=True` is equivalent to passing
the console handler to the `callbacks` argument of that object and of all its
child objects — every request then produces the same handler set for every
event — and the console handler is invoked even without being explicitly
passed. -/
theorem C9_verbose_equiv_console (obj : CBObject) (reqCbs : List Handler)
    (hv : allVerboseFalse obj = true) :
    invokeHandlers (setVerbose obj) reqCbs =
      invokeHandlers (addConsoleEverywhere obj) reqCbs ∧
    ∀ l ∈ invokeHandlers (setVerbose obj) reqCbs, Handler.console ∈ l := by
  constructor
  · cases obj with
    | leaf cbs v =>
      simp only [allVerboseFalse, Bool.not_eq_true'] at hv
      subst hv
      simp [invokeHandlers, runHandlers, setVerbose, addConsoleEverywhere,
        effectiveHandlers]
    | node cbs v child =>
      simp only [allVerboseFalse, Bool.and_eq_true, Bool.not_eq_true'] at hv
      obtain ⟨hv1, hv2⟩ := hv
      subst hv1
      simp only [invokeHandlers, setVerbose, addConsoleEverywhere, runHandlers,
        Bool.or_false, Bool.false_or]
      rw [runHandlers_verbose_eq_console child reqCbs hv2]
      simp [effectiveHandlers]
  · cases obj with
    | leaf cbs v =>
      intro l hl
      simp only [invokeHandlers, setVerbose, runHandlers,
        List.mem_singleton] at hl
      subst hl
      exact mem_effectiveHandlers.mpr (Or.inr (Or.inl ⟨rfl, rfl⟩))
    | node cbs v child =>
      intro l hl
      simp only [invokeHandlers, setVerbose, runHandlers, List.mem_cons] at hl
      rcases hl with e | hmem'
      · subst e
        exact mem_effectiveHandlers.mpr (Or.inr (Or.inl ⟨rfl, rfl⟩))
      · exact console_mem_runHandlers child reqCbs l hmem'

/-- Witness for C9: a chain with one constructor handler and an attached
model, constructed verbose, equals the same chain with the console handler
passed explicitly everywhere. -/
theorem C9_verbose_equiv_console_witness :
    invokeHandlers
      (setVerbose (CBObject.node [Handler.named "hdl"] false
        (CBObject.leaf [] false))) [] =
      invokeHandlers
        (addConsoleEverywhere (CBObject.node [Handler.named "hdl"] false
          (CBObject.leaf [] false))) [] ∧
    ∀ l ∈ invokeHandlers
        (setVerbose (CBObject.node [Handler.named "hdl"] false
          (CBObject.leaf [] false))) [],
      Handler.console ∈ l :=
  C9_verbose_equiv_console
    (CBObject.node [Handler.named "hdl"] false (CBObject.leaf [] false)) []
    (by decide)

/-- Error notifications never pass the start-notification filter. -/
theorem filter_start_errors (stage : Stage) (e : String) :
    ∀ l : List Handler,
      (l.map (fun h' => (h', StageEvent.errored stage e))).filter
        (fun p => p.2 == StageEvent.start stage) = []
  | [] => rfl
  | a :: t => by
    have hb : (StageEvent.errored stage e == StageEvent.start stage)
        = false := by simp
    simp [List.filter_cons, hb, filter_start_errors stage e t]

/-- The start notifications of a stage name the registered handlers, in
order. -/
theorem filter_start_starts (stage : Stage) :
    ∀ l : List Handler,
      ((l.map (fun h' => (h', StageEvent.start stage))).filter
        (fun p => p.2 == StageEvent.start stage)).map Prod.fst = l
  | [] => rfl
  | a :: t => by
    have hb : (StageEvent.start stage == StageEvent.start stage)
        = true := by simp
    simp [List.filter_cons, hb, filter_start_starts stage t]

/-- C7: when the underlying vendor call fails, the error surfaces through the
registered handlers' error hooks for the corresponding stage (`on_llm_error`,
`on_chain_error`, `on_tool_error`); the failed outcome is returned unchanged,
the stage notifies each registered handler of exactly one start (the call is
not re-attempted), and no end notification is emitted — no retry, backoff or
recovery policy is applied. -/
theorem C7_error_surfacing_no_retry (stage : Stage) (handlers : List Handler)
    (e : String) :
    (runStageOnce stage handlers (VendorResult.err e)).2 =
      VendorResult.err e ∧
    (∀ h ∈ handlers, (h, StageEvent.errored stage e) ∈
      (runStageOnce stage handlers (VendorResult.err e)).1) ∧
    ((runStageOnce stage handlers (VendorResult.err e)).1.filter
      (fun p => p.2 == StageEvent.start stage)).map Prod.fst = handlers ∧
    (∀ h r, (h, StageEvent.ended stage r) ∉
      (runStageOnce stage handlers (VendorResult.err e)).1) := by
  refine ⟨rfl, ?_, ?_, ?_⟩
  · intro h hm
    show (h, StageEvent.errored stage e) ∈
      handlers.map (fun h' => (h', StageEvent.start stage)) ++
        handlers.map (fun h' => (h', StageEvent.errored stage e))
    exact List.mem_append.mpr (Or.inr (List.mem_map.mpr ⟨h, hm, rfl⟩))
  · show ((handlers.map (fun h' => (h', StageEvent.start stage)) ++
        handlers.map (fun h' => (h', StageEvent.errored stage e))).filter
        (fun p => p.2 == StageEvent.start stage)).map Prod.fst = handlers
    rw [List.filter_append, filter_start_errors stage e handlers,
      List.append_nil]
    exact filter_start_starts stage handlers
  · intro h r hc
    have hc' : (h, StageEvent.ended stage r) ∈
        handlers.map (fun h' => (h', StageEvent.start stage)) ++
          handlers.map (fun h' => (h', StageEvent.errored stage e)) := hc
    rcases List.mem_append.mp hc' with hm | hm <;>
      · rcases List.mem_map.mp hm with ⟨a, _, ha⟩
        simp at ha

/-- Witness for C7: one handler observing a failing chat-model call. -/
theorem C7_error_surfacing_no_retry_witness :
    (runStageOnce Stage.llm [Handler.named "hdl"]
      (VendorResult.err "boom")).2 = VendorResult.err "boom" ∧
    (∀ h ∈ [Handler.named "hdl"], (h, StageEvent.errored Stage.llm "boom") ∈
      (runStageOnce Stage.llm [Handler.named "hdl"]
        (VendorResult.err "boom")).1) ∧
    ((runStageOnce Stage.llm [Handler.named "hdl"]
        (VendorResult.err "boom")).1.filter
      (fun p => p.2 == StageEvent.start Stage.llm)).map Prod.fst =
      [Handler.named "hdl"] ∧
    (∀ h r, (h, StageEvent.ended Stage.llm r) ∉
      (runStageOnce Stage.llm [Handler.named "hdl"]
        (VendorResult.err "boom")).1) :=
  C7_error_surfacing_no_retry Stage.llm [Handler.named "hdl"] "boom"
